import Mathlib

/-!
Verification of the chat service's connection-handling core
(`src/thread_pool.rs`, `src/chat_server.rs`, `src/chat_client.rs`)
against its natural-language specification.

The Rust source is shallowly embedded: each stateful loop becomes a
Lean function over an explicit trace of the I/O events the loop reacts
to, and the observable effects (messages pushed to the room's inbound
queue, bytes written to a socket or to the terminal, process exits,
panics) are collected in the result.
-/

namespace ChatSpec

/-! ## UTF-8 decoding

Embeds `String::from_utf8` from the Rust standard library as used at
`chat_server.rs:165` and `chat_client.rs:118`: strict UTF-8 validation
(RFC 3629 byte ranges, rejecting overlong forms, surrogates and
code points above U+10FFFF), returning `none` exactly when Rust's
`from_utf8` returns `Err`. -/

/-- A UTF-8 continuation byte, `0x80 ..= 0xBF`. -/
def utf8Cont (b : Nat) : Bool := 0x80 ≤ b && b ≤ 0xBF

/-- Lower bound for the first continuation byte after leading byte `b`
(0xA0 after 0xE0, 0x90 after 0xF0, else 0x80), per the UTF-8 table. -/
def utf8FirstLo (b : Nat) : Nat :=
  if b = 0xE0 then 0xA0 else if b = 0xF0 then 0x90 else 0x80

/-- Upper bound for the first continuation byte after leading byte `b`
(0x9F after 0xED, 0x8F after 0xF4, else 0xBF), per the UTF-8 table. -/
def utf8FirstHi (b : Nat) : Nat :=
  if b = 0xED then 0x9F else if b = 0xF4 then 0x8F else 0xBF

/-- Decode a byte sequence as UTF-8 text, `none` on invalid input;
the embedding of `String::from_utf8` (which `chat_server.rs:165`
calls with `.unwrap()`). -/
def utf8Decode : List Nat → Option (List Char)
  | [] => some []
  | b :: rest =>
    if b ≤ 0x7F then
      (utf8Decode rest).map (fun cs => Char.ofNat b :: cs)
    else if 0xC2 ≤ b && b ≤ 0xDF then
      match rest with
      | c1 :: r =>
        if utf8Cont c1 then
          (utf8Decode r).map (fun cs =>
            Char.ofNat ((b - 0xC0) * 64 + (c1 - 0x80)) :: cs)
        else none
      | [] => none
    else if 0xE0 ≤ b && b ≤ 0xEF then
      match rest with
      | c1 :: c2 :: r =>
        if (utf8FirstLo b ≤ c1 && c1 ≤ utf8FirstHi b) && utf8Cont c2 then
          (utf8Decode r).map (fun cs =>
            Char.ofNat ((b - 0xE0) * 4096 + (c1 - 0x80) * 64 + (c2 - 0x80)) :: cs)
        else none
      | _ => none
    else if 0xF0 ≤ b && b ≤ 0xF4 then
      match rest with
      | c1 :: c2 :: c3 :: r =>
        if (utf8FirstLo b ≤ c1 && c1 ≤ utf8FirstHi b) && (utf8Cont c2 && utf8Cont c3) then
          (utf8Decode r).map (fun cs =>
            Char.ofNat ((b - 0xF0) * 262144 + (c1 - 0x80) * 4096
              + (c2 - 0x80) * 64 + (c3 - 0x80)) :: cs)
        else none
      | _ => none
    else none

/-- The byte sequence of an ASCII string, used to build concrete frames. -/
def strBytes (s : String) : List Nat := s.data.map Char.toNat

/-! ## Rust `str` primitives

`handle_client` uses `str::trim`, `str::starts_with` and byte slicing;
they are embedded over `List Char`. -/

/-- Rust's `char::is_whitespace`: the Unicode `White_Space` property. -/
def rustIsWhitespace (c : Char) : Bool :=
  let n := c.toNat
  (0x09 ≤ n && n ≤ 0x0D) || n = 0x20 || n = 0x85 || n = 0xA0 || n = 0x1680 ||
  (0x2000 ≤ n && n ≤ 0x200A) || n = 0x2028 || n = 0x2029 || n = 0x202F ||
  n = 0x205F || n = 0x3000

/-- Rust's `str::trim`: drop leading and trailing whitespace. -/
def rustTrim (cs : List Char) : List Char :=
  ((cs.dropWhile rustIsWhitespace).reverse.dropWhile rustIsWhitespace).reverse

/-- Rust's `str::starts_with` for a string pattern. -/
def rustStartsWith : List Char → List Char → Bool
  | _, [] => true
  | [], _ :: _ => false
  | c :: cs, p :: ps => c == p && rustStartsWith cs ps

/-! ## Session Handler (`ChatServer::handle_client`, `chat_server.rs:130-201`)

The per-connection loop is embedded as a function over the trace of
readiness events it observes.  The mutable local `user` (the display
name, initially `""`) is the state; the observable effects are the
strings sent to the room's inbound `mpsc` queue (`message_sender.send`)
and the bytes written back to the socket. -/

/-- One event observed by `handle_client`'s poll loop: a read with the
bytes obtained (`[]` models a zero-length read, i.e. `Ok(0)`), a
would-block read, any other read error, or a write-ready wake together
with the result of `room_receiver.try_recv()`. -/
inductive SessEvent
  | read (bytes : List Nat)
  | readWouldBlock
  | readErr
  | writable (recv : Option String)
deriving DecidableEq

/-- Result of running `handle_client` over a trace: still looping with
the current `user` when the trace ends, returned (function exit), or
panicked (an `.unwrap()` failure).  `sent` are the messages pushed to
the room's inbound queue, `written` the messages written to the socket,
both in order. -/
inductive SessOutcome
  | running (user : String) (sent : List String) (written : List String)
  | returned (sent : List String) (written : List String)
  | panicked (sent : List String) (written : List String)
deriving DecidableEq

/-- Prepend a message pushed to the room's inbound queue. -/
def SessOutcome.addSent (m : String) : SessOutcome → SessOutcome
  | .running u s w => .running u (m :: s) w
  | .returned s w => .returned (m :: s) w
  | .panicked s w => .panicked (m :: s) w

/-- Prepend a message written to the session's socket. -/
def SessOutcome.addWritten (m : String) : SessOutcome → SessOutcome
  | .running u s w => .running u s (m :: w)
  | .returned s w => .returned s (m :: w)
  | .panicked s w => .panicked s (m :: w)

/-- The messages pushed to the room's inbound queue. -/
def SessOutcome.sent : SessOutcome → List String
  | .running _ s _ => s
  | .returned s _ => s
  | .panicked s _ => s

/-- System notice `format!("{} has joined the room.", user)`. -/
def joinMsg (name : String) : String := name ++ " has joined the room."

/-- System notice `format!("{} has left the room.", user)`. -/
def leaveMsg (name : String) : String := name ++ " has left the room."

/-- Chat line `format!("{}: {}", user, message)`. -/
def chatMsg (name text : String) : String := name ++ ": " ++ text

/-- The body of `ChatServer::handle_client` (`chat_server.rs:145-200`),
run over an event trace from display-name state `user`:
a zero-length read returns, sending `leaveMsg` iff `user.len() > 0`;
a nonempty read is decoded with `String::from_utf8(..).unwrap()`
(panic on invalid bytes) and trimmed, a frame whose trim starts with
`"/user"` replaces the name by the trimmed remainder and sends a join
notice, any other frame is sent as `chatMsg` only when `user.len() > 0`;
would-block reads are skipped, other read errors return; a write-ready
wake writes the message obtained from `try_recv`, if any. -/
def sessRun (user : String) : List SessEvent → SessOutcome
  | [] => .running user [] []
  | .read [] :: _ =>
      if user.length > 0 then .returned [leaveMsg user] [] else .returned [] []
  | .read (b :: bs) :: rest =>
      match utf8Decode (b :: bs) with
      | none => .panicked [] []
      | some cs =>
        let message := rustTrim cs
        if rustStartsWith message "/user".data then
          SessOutcome.addSent (joinMsg (String.mk (rustTrim (message.drop 5))))
            (sessRun (String.mk (rustTrim (message.drop 5))) rest)
        else if user.length > 0 then
          SessOutcome.addSent (chatMsg user (String.mk message)) (sessRun user rest)
        else sessRun user rest
  | .readWouldBlock :: rest => sessRun user rest
  | .readErr :: _ => .returned [] []
  | .writable (some m) :: rest => SessOutcome.addWritten m (sessRun user rest)
  | .writable none :: rest => sessRun user rest

/-- A frame that triggers the naming branch of `handle_client`: it
decodes as text whose trim starts with `"/user"` (`chat_server.rs:170`);
per §4.4 of the specification receiving such a frame is the
`Unnamed → Named` transition. -/
def isNamingFrame (bs : List Nat) : Bool :=
  match utf8Decode bs with
  | some cs => rustStartsWith (rustTrim cs) "/user".data
  | none => false

/-- An event that is not the receipt of a naming frame. -/
def notNamingEvent : SessEvent → Bool
  | .read bs => !(isNamingFrame bs)
  | _ => true

/-- The display name a naming frame sets: the trimmed remainder after
the `"/user"` token (`chat_server.rs:171`). -/
def frameName (bs : List Nat) : String :=
  String.mk (rustTrim ((rustTrim ((utf8Decode bs).getD [])).drop 5))

/-! ## Worker loop (`Worker::new`, `thread_pool.rs:82-107`)

One Worker's view of the shared queue: the sequence of `Message`s it
receives, in order.  The spawned closure is
`loop { match recv() { NewJob(job) => job(), Terminate => break } }`;
`job()` is called with no `catch_unwind`, so a panicking job unwinds
the worker thread and ends the loop. -/

/-- A pool `Message` as one Worker sees it; `newJob panics` records
whether the job's closure panics when executed. -/
inductive WorkerMsg
  | newJob (panics : Bool)
  | terminate
deriving DecidableEq

/-- How a Worker's loop ends: it `break`s on `Terminate`, its thread
unwinds when a job panics, or it is still blocked in `recv()` when its
message sequence ends.  `executed` counts jobs run to completion. -/
inductive WorkerEnd
  | terminated (executed : Nat)
  | panicked (executed : Nat)
  | blocked (executed : Nat)
deriving DecidableEq

/-- The Worker message loop of `Worker::new` (`thread_pool.rs:84-101`),
having already completed `n` jobs. -/
def workerLoop : List WorkerMsg → Nat → WorkerEnd
  | [], n => .blocked n
  | .newJob p :: rest, n => if p then .panicked n else workerLoop rest (n + 1)
  | .terminate :: _, n => .terminated n

/-! ## Thread pool shutdown (`ThreadPool::drop`, `thread_pool.rs:47-74`)

`drop` sends exactly one `Terminate` per Worker into the shared
channel (after all jobs submitted via `execute`) and then joins every
Worker.  The shared `mpsc` channel guarded by a `Mutex` is a single
FIFO queue; a schedule lists which Worker wins the lock for each
dequeue.  Jobs are identified by their submission index; for this
model jobs run to completion (a panicking job is the subject of the
Worker-loop model above). -/

/-- A message in the pool's shared channel. -/
inductive PoolMsg
  | newJob (id : Nat)
  | terminate
deriving DecidableEq

/-- The channel contents at shutdown of a pool of `m` Workers with `k`
jobs submitted: the `k` jobs in submission order, then the `m`
`Terminate`s sent by `ThreadPool::drop` (`thread_pool.rs:53-55`). -/
def initQueue (k m : Nat) : List PoolMsg :=
  (List.range k).map PoolMsg.newJob ++ List.replicate m PoolMsg.terminate

/-- Pool execution state: the remaining queue, which Workers are still
looping (index into the pool), and the log of `(worker, message)`
dequeues in order. -/
structure PoolState where
  queue : List PoolMsg
  alive : List Bool
  log : List (Nat × PoolMsg)
deriving DecidableEq

/-- One dequeue by Worker `w`: if `w` is still looping and the queue is
nonempty it takes the head; a `NewJob` is executed
(`thread_pool.rs:88-94`), a `Terminate` `break`s the loop
(`thread_pool.rs:95-99`). -/
def poolStep (s : PoolState) (w : Nat) : PoolState :=
  if s.alive.getD w false then
    match s.queue with
    | [] => s
    | PoolMsg.newJob j :: rest =>
        { queue := rest, alive := s.alive, log := s.log ++ [(w, PoolMsg.newJob j)] }
    | PoolMsg.terminate :: rest =>
        { queue := rest, alive := s.alive.set w false, log := s.log ++ [(w, PoolMsg.terminate)] }
  else s

/-- Run a schedule of dequeue winners. -/
def poolRun (s : PoolState) : List Nat → PoolState
  | [] => s
  | w :: ws => poolRun (poolStep s w) ws

/-- The pool state when `ThreadPool::drop` has sent its `Terminate`s:
`k` jobs then `m` Terminates queued, all `m` Workers looping. -/
def poolInit (k m : Nat) : PoolState :=
  ⟨initQueue k m, List.replicate m true, []⟩

/-- Number of `Terminate`s Worker `w` has consumed. -/
def termCount (w : Nat) (log : List (Nat × PoolMsg)) : Nat :=
  (log.filter (fun p => p.1 == w && p.2 == PoolMsg.terminate)).length

/-- The job id carried by a `NewJob` message. -/
def poolJobId : PoolMsg → Option Nat
  | PoolMsg.newJob j => some j
  | PoolMsg.terminate => none

/-- The ids of the jobs executed, in execution order. -/
def jobsDone (log : List (Nat × PoolMsg)) : List Nat :=
  log.filterMap (fun p => poolJobId p.2)

/-- The invariant maintained by pool execution from `poolInit k m`:
the dequeued messages followed by the remaining queue are the initial
queue; there are `m` Workers; a Worker has consumed one `Terminate` if
it has exited its loop and none if it is still looping (in particular
never more than one); and the number of exited Workers equals the
number of `Terminate`s consumed. -/
def PoolInv (k m : Nat) (s : PoolState) : Prop :=
  s.log.map Prod.snd ++ s.queue = initQueue k m ∧
  s.alive.length = m ∧
  (∀ w, termCount w s.log =
    if s.alive.getD w false then 0 else if w < m then 1 else 0) ∧
  s.alive.count false = (s.log.filter (fun p => p.2 == PoolMsg.terminate)).length

/-- All `m` Workers have exited their loops (so `drop`'s `join`s have
all returned). -/
def allExited (m : Nat) (s : PoolState) : Prop :=
  ∀ w, w < m → s.alive.getD w false = false

instance (m : Nat) (s : PoolState) : Decidable (allExited m s) :=
  Nat.decidableBallLT m (fun w _ => s.alive.getD w false = false)

/-! ## Acceptor loop (`ChatServer::run`, `chat_server.rs:75-106`)

On a `Listener` wake the server loops over `listener.accept()`:
each accepted stream gets one `pool.execute` of a session-handling
job, `WouldBlock` breaks the inner loop, any other error returns. -/

/-- One `listener.accept()` result during a wake. -/
inductive AcceptPoll
  | conn (id : Nat)
  | wouldBlock
  | fatalErr
deriving DecidableEq

/-- How the inner accept loop stopped: `drained` on `WouldBlock`
(`chat_server.rs:84`), `serverReturn` on any other error
(`chat_server.rs:85`), `pending` if the wake's poll results ran out. -/
inductive AcceptExit
  | drained
  | serverReturn
  | pending
deriving DecidableEq

/-- The inner accept loop of one `Listener` wake
(`chat_server.rs:81-102`): returns the connections for which a
session-handling job was submitted to the pool, and how the loop
stopped. -/
def acceptDrain : List AcceptPoll → List Nat × AcceptExit
  | [] => ([], AcceptExit.pending)
  | AcceptPoll.conn id :: rest =>
      let r := acceptDrain rest
      (id :: r.1, r.2)
  | AcceptPoll.wouldBlock :: _ => ([], AcceptExit.drained)
  | AcceptPoll.fatalErr :: _ => ([], AcceptExit.serverReturn)

/-! ## Chat client (`ChatClient::handle_room`, `chat_client.rs:55-147`)

The client's room loop over the trace of its poll wakes.  Observable
effects: lines written to the terminal (`output.write`), messages
written to the server socket, and `process::exit` calls. -/

/-- One wake of the client's poll loop: the 5-second `wait_timeout`
timed out, failed otherwise, or delivered readiness.  A readable wake
carries the bytes read (`[]` for a zero-length read); a writable wake
carries the `room_receiver.try_recv()` result. -/
inductive RoomWake
  | timedOut
  | waitErr
  | readData (bytes : List Nat)
  | readWouldBlock
  | readErr
  | writable (recv : Option String)
deriving DecidableEq

/-- Result of the client's room loop: still looping when the trace
ends, `process::exit(code)`, returned (on `/quit`), or panicked on an
`.unwrap()`.  `printed` are terminal writes, `toServer` socket
writes, in order. -/
inductive RoomOutcome
  | looping (printed : List String) (toServer : List String)
  | exited (code : Nat) (printed : List String) (toServer : List String)
  | quit (printed : List String) (toServer : List String)
  | panicked (printed : List String) (toServer : List String)
deriving DecidableEq

/-- Prepend a terminal write. -/
def RoomOutcome.addPrinted (m : String) : RoomOutcome → RoomOutcome
  | .looping p t => .looping (m :: p) t
  | .exited c p t => .exited c (m :: p) t
  | .quit p t => .quit (m :: p) t
  | .panicked p t => .panicked (m :: p) t

/-- Prepend a socket write. -/
def RoomOutcome.addToServer (m : String) : RoomOutcome → RoomOutcome
  | .looping p t => .looping p (m :: t)
  | .exited c p t => .exited c p (m :: t)
  | .quit p t => .quit p (m :: t)
  | .panicked p t => .panicked p (m :: t)

/-- The client's room loop (`chat_client.rs:89-146`): a timeout prints
`"Timed out\n"` and exits with status 1; a zero-length read prints
`"Server disconnected\n"` and exits with status 1; other read data is
decoded (`.unwrap()`) and printed followed by `"\n"`; on a writable
wake a received `"/quit"` (trimmed) returns, any other received
message is written (trimmed) to the server. -/
def roomLoop : List RoomWake → RoomOutcome
  | [] => .looping [] []
  | RoomWake.timedOut :: _ => .exited 1 ["Timed out\n"] []
  | RoomWake.waitErr :: rest => roomLoop rest
  | RoomWake.readData [] :: _ => .exited 1 ["Server disconnected\n"] []
  | RoomWake.readData (b :: bs) :: rest =>
      match utf8Decode (b :: bs) with
      | none => .panicked [] []
      | some cs =>
          RoomOutcome.addPrinted (String.mk cs ++ "\n") (roomLoop rest)
  | RoomWake.readWouldBlock :: rest => roomLoop rest
  | RoomWake.readErr :: rest => roomLoop rest
  | RoomWake.writable (some m) :: rest =>
      if String.mk (rustTrim m.data) = "/quit" then .quit [] []
      else RoomOutcome.addToServer (String.mk (rustTrim m.data)) (roomLoop rest)
  | RoomWake.writable none :: rest => roomLoop rest

/-- The result of `TcpStream::connect` at `chat_client.rs:62`:
success, or failure carrying `err.raw_os_error()` and the error's
display text. -/
inductive ConnectResult
  | ok
  | connErr (osCode : Option Nat) (errText : String)
deriving DecidableEq

/-- `ChatClient::handle_room` (`chat_client.rs:55-147`): on connect
failure it prints the error and exits with the raw OS error code, or 1
if the error has none (`chat_client.rs:64-70`); on success it first
writes `"/user <name>"` to the server (`chat_client.rs:74-75`) and
enters the room loop. -/
def handleRoom (user : String) (c : ConnectResult) (wakes : List RoomWake) : RoomOutcome :=
  match c with
  | ConnectResult.connErr (some code) text => .exited code [text] []
  | ConnectResult.connErr none text => .exited 1 [text] []
  | ConnectResult.ok => RoomOutcome.addToServer ("/user " ++ user) (roomLoop wakes)

/-! ## Helper lemmas -/

theorem sent_addWritten (m : String) (o : SessOutcome) :
    (o.addWritten m).sent = o.sent := by
  cases o <;> rfl

/-! ## Claims about the Session Handler -/

/-- C2: the claim says a received frame whose bytes are not valid text
is a recoverable per-frame error and the session continues.  The code
(`chat_server.rs:165`) instead calls `String::from_utf8(..).unwrap()`,
so the invalid frame `[0xFF]` panics the session handler: the frame is
not ignored and the session does not continue.  This theorem evaluates
the embedded handler at that failing input. -/
theorem c2_invalid_utf8_panics_handler :
    sessRun "" [SessEvent.read [255]] = SessOutcome.panicked [] [] ∧
    utf8Decode [255] = none := by decide

/-- C4 counterexample: the frame `"/user "` begins with the naming
command, so per the specification's state machine the session becomes
`Named` (with the trimmed remainder `""` as its name), yet on the
subsequent zero-length read the handler pushes no leave notice: the
only inbound message of the whole trace is the join notice.  This
refutes the claimed "leave notice iff previously became Named". -/
theorem c4_counterexample :
    rustStartsWith (rustTrim "/user ".data) "/user".data = true ∧
    sessRun "" [SessEvent.read (strBytes "/user "), SessEvent.read []] =
      SessOutcome.returned [joinMsg ""] [] := by decide

/-- C4 as amended: a zero-length read always terminates the handler,
and it pushes exactly one leave notice if and only if the session's
display name is nonempty at that moment (`user.len() > 0`,
`chat_server.rs:154-162`); with an empty name (never named, or last
named with an empty trimmed remainder) no leave notice is pushed. -/
theorem c4_zero_read_terminates (user : String) (evts : List SessEvent) :
    sessRun user (SessEvent.read [] :: evts) =
      SessOutcome.returned (if user.length > 0 then [leaveMsg user] else []) [] := by
  by_cases h : user.length > 0 <;> simp [sessRun, h]

/-- C5 counterexample: after the naming frame `"/user "` (which begins
with the naming command, so the session is `Named` with name `""`),
the chat frame `"hi"` is dropped rather than pushed as `": hi"`: the
trace's only inbound message is the join notice.  This refutes the
claimed "every other frame received while Named is pushed as
`<name>: <text>`". -/
theorem c5_counterexample :
    rustStartsWith (rustTrim "/user ".data) "/user".data = true ∧
    sessRun "" [SessEvent.read (strBytes "/user "), SessEvent.read (strBytes "hi")] =
      SessOutcome.running "" [joinMsg ""] [] := by decide

/-- C5 as amended: a decoded frame whose trim starts with `"/user"`
sets the display name to the trimmed remainder and pushes exactly one
join notice; any other decoded frame received while the display name
is nonempty pushes exactly one `<name>: <text>` line
(`chat_server.rs:165-183`). -/
theorem c5_frame_dispatch (user : String) (b : Nat) (bs : List Nat) (cs : List Char)
    (hdec : utf8Decode (b :: bs) = some cs) :
    (rustStartsWith (rustTrim cs) "/user".data = true →
      sessRun user [SessEvent.read (b :: bs)] =
        SessOutcome.running (String.mk (rustTrim ((rustTrim cs).drop 5)))
          [joinMsg (String.mk (rustTrim ((rustTrim cs).drop 5)))] []) ∧
    (rustStartsWith (rustTrim cs) "/user".data = false → user.length > 0 →
      sessRun user [SessEvent.read (b :: bs)] =
        SessOutcome.running user [chatMsg user (String.mk (rustTrim cs))] []) := by
  constructor
  · intro hs
    simp [sessRun, hdec, hs, SessOutcome.addSent]
  · intro hs hu
    simp [sessRun, hdec, hs, hu, SessOutcome.addSent]

/-- Witness for `c5_frame_dispatch`, exercising both branches: the
frame `"/user Bob"` from an unnamed session, and the frame `"hi"` from
a session named `"Alice"`. -/
theorem c5_frame_dispatch_witness :
    sessRun "" [SessEvent.read (strBytes "/user Bob")] =
      SessOutcome.running (String.mk (rustTrim ((rustTrim "/user Bob".data).drop 5)))
        [joinMsg (String.mk (rustTrim ((rustTrim "/user Bob".data).drop 5)))] [] ∧
    sessRun "Alice" [SessEvent.read (strBytes "hi")] =
      SessOutcome.running "Alice" [chatMsg "Alice" (String.mk (rustTrim "hi".data))] [] :=
  ⟨(c5_frame_dispatch "" 47 (strBytes "user Bob") "/user Bob".data (by decide)).1 (by decide),
   (c5_frame_dispatch "Alice" 104 [105] "hi".data (by decide)).2 (by decide) (by decide)⟩

/-- C6: a session that never sends a naming frame keeps the empty
display name, so none of its events push anything to the room's
inbound queue — in particular no `"<empty>: <text>"` line is ever
forwarded (`chat_server.rs:177-183`). -/
theorem c6_unnamed_sends_nothing (evts : List SessEvent)
    (h : evts.all notNamingEvent = true) :
    (sessRun "" evts).sent = [] := by
  induction evts with
  | nil => rfl
  | cons e rest ih =>
    rw [List.all_cons, Bool.and_eq_true] at h
    obtain ⟨h1, h2⟩ := h
    cases e with
    | read bytes =>
      cases bytes with
      | nil => simp [sessRun, SessOutcome.sent]
      | cons b bs =>
        simp only [notNamingEvent, Bool.not_eq_true'] at h1
        cases hd : utf8Decode (b :: bs) with
        | none => simp [sessRun, hd, SessOutcome.sent]
        | some cs =>
          simp only [isNamingFrame, hd] at h1
          have hlen : ¬ (("" : String).length > 0) := by decide
          simp [sessRun, hd, h1, hlen, ih h2]
    | readWouldBlock => exact ih h2
    | readErr => simp [sessRun, SessOutcome.sent]
    | writable recv =>
      cases recv with
      | some m => rw [sessRun, sent_addWritten]; exact ih h2
      | none => exact ih h2

/-- Witness for `c6_unnamed_sends_nothing`: a session that sends
`"hi"`, sees an empty write wake, and disconnects pushes nothing. -/
theorem c6_unnamed_sends_nothing_witness :
    (sessRun "" [SessEvent.read (strBytes "hi"), SessEvent.writable none,
      SessEvent.read []]).sent = [] :=
  c6_unnamed_sends_nothing _ (by decide)

/-- C9: every naming frame — including one received while the session
is already named — replaces the display name with the frame's trimmed
remainder and pushes one join notice, so a sequence of N naming frames
pushes N join notices and leaves the last name in effect
(`chat_server.rs:170-176`). -/
theorem c9_renaming (user : String) (frames : List (List Nat))
    (h : frames.all isNamingFrame = true) :
    sessRun user (frames.map SessEvent.read) =
      SessOutcome.running ((frames.map frameName).getLastD user)
        (frames.map (fun bs => joinMsg (frameName bs))) [] := by
  induction frames generalizing user with
  | nil => rfl
  | cons bs rest ih =>
    rw [List.all_cons, Bool.and_eq_true] at h
    obtain ⟨h1, h2⟩ := h
    cases bs with
    | nil => exact absurd h1 (by decide)
    | cons b bs2 =>
      cases hd : utf8Decode (b :: bs2) with
      | none => rw [isNamingFrame, hd] at h1; exact absurd h1 (by decide)
      | some cs =>
        simp only [isNamingFrame, hd] at h1
        have hn : frameName (b :: bs2) = String.mk (rustTrim ((rustTrim cs).drop 5)) := by
          simp only [frameName, hd, Option.getD_some]
        simp only [List.map_cons, sessRun, hd, h1, if_true, ih _ h2,
          SessOutcome.addSent, List.getLastD_cons, hn]

/-- Witness for `c9_renaming`: the naming frames `"/user A"` then
`"/user B"` push two join notices and leave name `"B"`. -/
theorem c9_renaming_witness :
    sessRun "" ([strBytes "/user A", strBytes "/user B"].map SessEvent.read) =
      SessOutcome.running (([strBytes "/user A", strBytes "/user B"].map frameName).getLastD "")
        ([strBytes "/user A", strBytes "/user B"].map (fun bs => joinMsg (frameName bs))) [] :=
  c9_renaming "" [strBytes "/user A", strBytes "/user B"] (by decide)

/-- C10: a naming frame whose remainder trims to the empty string sets
the name to `""` and still pushes `" has joined the room."`; a later
chat frame is then dropped (the `user.len() > 0` guard fails), and a
disconnect pushes no leave notice: the whole trace sends only the
empty-named join notice (`chat_server.rs:154-183`). -/
theorem c10_empty_name (user : String) (b1 b2 : List Nat) (cs1 cs2 : List Char)
    (h1 : utf8Decode b1 = some cs1)
    (hs1 : rustStartsWith (rustTrim cs1) "/user".data = true)
    (he : rustTrim ((rustTrim cs1).drop 5) = [])
    (h2 : utf8Decode b2 = some cs2)
    (hs2 : rustStartsWith (rustTrim cs2) "/user".data = false) :
    sessRun user [SessEvent.read b1, SessEvent.read b2, SessEvent.read []] =
      SessOutcome.returned [joinMsg ""] [] := by
  cases b1 with
  | nil =>
    rw [show utf8Decode [] = some [] from rfl] at h1
    obtain rfl : cs1 = [] := by injection h1 with h; exact h.symm
    exact absurd hs1 (by decide)
  | cons a1 r1 =>
    cases b2 with
    | nil =>
      simp [sessRun, h1, hs1, he, SessOutcome.addSent]
    | cons a2 r2 =>
      simp [sessRun, h1, hs1, he, h2, hs2, SessOutcome.addSent]

/-- Witness for `c10_empty_name`: from a session named `"x"`, the
frames `"/user "`, `"hi"`, then a disconnect. -/
theorem c10_empty_name_witness :
    sessRun "x" [SessEvent.read (strBytes "/user "), SessEvent.read (strBytes "hi"),
      SessEvent.read []] = SessOutcome.returned [joinMsg ""] [] :=
  c10_empty_name "x" (strBytes "/user ") (strBytes "hi") "/user ".data "hi".data
    (by decide) (by decide) (by decide) (by decide) (by decide)

/-! ## Claims about the Worker and the pool -/

/-- C1: the claim says a Worker catches a failing job and continues
its loop.  The code (`thread_pool.rs:91`) calls `job()` with no
`catch_unwind`, so a panicking job unwinds the worker thread: on a
queue holding a panicking job followed by an ordinary job, the Worker
ends at the panic with zero jobs completed and never dequeues the
second job. -/
theorem c1_panicking_job_kills_worker :
    workerLoop [WorkerMsg.newJob true, WorkerMsg.newJob false] 0 =
      WorkerEnd.panicked 0 ∧
    workerLoop [WorkerMsg.newJob false, WorkerMsg.terminate] 0 =
      WorkerEnd.terminated 1 := by decide

/-! ## Claims about the Acceptor Loop -/

/-- C7: on a `Listener` wake the inner loop accepts every immediately
available connection up to the first `WouldBlock` and submits exactly
one session-handling job per accepted connection: for any pending
connections `ids` followed by a would-block result, the submitted jobs
are exactly `ids` and the loop breaks (`chat_server.rs:81-102`). -/
theorem c7_acceptor_drains (ids : List Nat) (later : List AcceptPoll) :
    acceptDrain (ids.map AcceptPoll.conn ++ AcceptPoll.wouldBlock :: later) =
      (ids, AcceptExit.drained) := by
  induction ids with
  | nil => rfl
  | cons i rest ih => simp [acceptDrain, ih]

/-! ## Claims about the client -/

/-- C8: the client exits with the peer's reported OS error code when
the initial connection fails (`chat_client.rs:62-70`); it prints
`"Timed out"` and exits with status 1 when the 5-second idle wait
times out (`chat_client.rs:93-99`); and it prints
`"Server disconnected"` and exits with status 1 on a zero-length read
from the server (`chat_client.rs:109-115`), wherever in the trace
those wakes occur. -/
theorem c8_client_exits (user text : String) (code : Nat) (wakes later : List RoomWake) :
    handleRoom user (ConnectResult.connErr (some code) text) wakes =
      RoomOutcome.exited code [text] [] ∧
    roomLoop (RoomWake.timedOut :: later) =
      RoomOutcome.exited 1 ["Timed out\n"] [] ∧
    roomLoop (RoomWake.readData [] :: later) =
      RoomOutcome.exited 1 ["Server disconnected\n"] [] :=
  ⟨rfl, rfl, rfl⟩

/-! ## Claim C3: pool shutdown (supporting lemmas) -/

theorem boolGetD_lt (l : List Bool) (i : Nat) (h : l.getD i false = true) :
    i < l.length := by
  induction l generalizing i with
  | nil => simp [List.getD] at h
  | cons a t ih =>
    cases i with
    | zero => simp
    | succ j => exact Nat.succ_lt_succ (ih j h)

theorem boolGetD_set_eq (l : List Bool) (i : Nat) (b : Bool) (h : i < l.length) :
    (l.set i b).getD i false = b := by
  induction l generalizing i with
  | nil => simp at h
  | cons a t ih =>
    cases i with
    | zero => rfl
    | succ j => exact ih j (Nat.lt_of_succ_lt_succ h)

theorem boolGetD_set_ne (l : List Bool) (i j : Nat) (b : Bool) (h : i ≠ j) :
    (l.set i b).getD j false = l.getD j false := by
  induction l generalizing i j with
  | nil => simp
  | cons a t ih =>
    cases i with
    | zero =>
      cases j with
      | zero => exact absurd rfl h
      | succ j2 => rfl
    | succ i2 =>
      cases j with
      | zero => rfl
      | succ j2 => exact ih i2 j2 (fun hq => h (by rw [hq]))

theorem countFalse_set (l : List Bool) (i : Nat) (h : l.getD i false = true) :
    (l.set i false).count false = l.count false + 1 := by
  induction l generalizing i with
  | nil => simp [List.getD] at h
  | cons a t ih =>
    cases i with
    | zero =>
      have : a = true := h
      simp [this, List.count_cons]
    | succ j =>
      have := ih j h
      simp only [List.set, List.count_cons, this]
      omega

theorem countFalse_all (l : List Bool)
    (h : ∀ i, i < l.length → l.getD i false = false) :
    l.count false = l.length := by
  induction l with
  | nil => rfl
  | cons a t ih =>
    have h0 : a = false := h 0 (Nat.succ_pos _)
    have ht := ih (fun i hi => h (i + 1) (Nat.succ_lt_succ hi))
    simp [h0, List.count_cons, ht]

theorem replicate_getD_true (m w : Nat) :
    (List.replicate m true).getD w false = decide (w < m) := by
  induction m generalizing w with
  | zero => simp
  | succ n ih =>
    cases w with
    | zero => simp [List.replicate]
    | succ v =>
      simp only [List.replicate, List.getD_cons_succ, ih]
      simp [Nat.succ_lt_succ_iff]

theorem termCount_append (w' w : Nat) (log : List (Nat × PoolMsg)) (msg : PoolMsg) :
    termCount w' (log ++ [(w, msg)]) =
      termCount w' log + (if w = w' ∧ msg = PoolMsg.terminate then 1 else 0) := by
  rw [termCount, termCount, List.filter_append, List.length_append]
  congr 1
  by_cases h : w = w' ∧ msg = PoolMsg.terminate
  · obtain ⟨h1, h2⟩ := h
    simp [List.filter, h1, h2]
  · rw [if_neg h]
    have : ((w, msg).1 == w' && (w, msg).2 == PoolMsg.terminate) = false := by
      rcases not_and_or.mp h with h1 | h2
      · simp [beq_eq_false_iff_ne.mpr h1]
      · simp [beq_eq_false_iff_ne.mpr h2]
    simp [List.filter, this]

theorem filterTerm_length (log : List (Nat × PoolMsg)) :
    (log.filter (fun p => p.2 == PoolMsg.terminate)).length =
      (log.map Prod.snd).count PoolMsg.terminate := by
  induction log with
  | nil => rfl
  | cons p rest ih =>
    by_cases h : p.2 = PoolMsg.terminate
    · simp [List.filter, List.count_cons, h, ih]
    · simp [List.filter, List.count_cons, beq_eq_false_iff_ne.mpr h, ih]

theorem jobsDone_map (log : List (Nat × PoolMsg)) :
    jobsDone log = (log.map Prod.snd).filterMap poolJobId := by
  rw [jobsDone, List.filterMap_map]
  rfl

theorem filterMap_poolJobId_newJob (l : List Nat) :
    (l.map PoolMsg.newJob).filterMap poolJobId = l := by
  induction l with
  | nil => rfl
  | cons a t ih => simp [List.filterMap_cons, poolJobId, ih]

theorem filterMap_poolJobId_replicate (n : Nat) :
    (List.replicate n PoolMsg.terminate).filterMap poolJobId = [] := by
  induction n with
  | zero => rfl
  | succ p ih => simp [List.replicate, List.filterMap_cons, poolJobId, ih]

theorem initQueue_filterMap (k m : Nat) :
    (initQueue k m).filterMap poolJobId = List.range k := by
  rw [initQueue, List.filterMap_append, filterMap_poolJobId_newJob,
    filterMap_poolJobId_replicate, List.append_nil]

theorem count_term_map_newJob (l : List Nat) :
    (l.map PoolMsg.newJob).count PoolMsg.terminate = 0 := by
  rw [List.count_eq_zero]
  intro hmem
  obtain ⟨x, _, hx⟩ := List.mem_map.mp hmem
  exact PoolMsg.noConfusion hx

theorem initQueue_count_term (k m : Nat) :
    (initQueue k m).count PoolMsg.terminate = m := by
  rw [initQueue, List.count_append, count_term_map_newJob,
    List.count_replicate_self, Nat.zero_add]

theorem initQueue_length (k m : Nat) : (initQueue k m).length = k + m := by
  rw [initQueue, List.length_append, List.length_map, List.length_range,
    List.length_replicate]

theorem poolInv_step (k m : Nat) (s : PoolState) (w : Nat) (h : PoolInv k m s) :
    PoolInv k m (poolStep s w) := by
  obtain ⟨hq, hl, ht, hc⟩ := h
  by_cases hw : s.alive.getD w false
  · have hwlt : w < s.alive.length := boolGetD_lt _ _ hw
    cases hqe : s.queue with
    | nil =>
      simp only [poolStep, hw, if_true, hqe]
      exact ⟨hq, hl, ht, hc⟩
    | cons msg rest =>
      rw [hqe] at hq
      cases msg with
      | newJob j =>
        simp only [poolStep, hw, if_true, hqe]
        refine ⟨?_, hl, ?_, ?_⟩
        · rw [List.map_append, List.append_assoc]
          exact hq
        · intro w2
          rw [termCount_append, ht w2]
          simp
        · rw [List.filter_append, List.length_append, hc]
          simp
      | terminate =>
        simp only [poolStep, hw, if_true, hqe]
        refine ⟨?_, by rw [List.length_set]; exact hl, ?_, ?_⟩
        · rw [List.map_append, List.append_assoc]
          exact hq
        · intro w2
          rw [termCount_append]
          by_cases hww : w = w2
          · subst hww
            have h1 : termCount w s.log = 0 := by rw [ht w, if_pos hw]
            have h2 : (s.alive.set w false).getD w false = false :=
              boolGetD_set_eq _ _ _ hwlt
            have h3 : w < m := hl ▸ hwlt
            rw [h1, h2, if_pos ⟨rfl, rfl⟩, if_neg Bool.false_ne_true, if_pos h3]
          · have h2 : (s.alive.set w false).getD w2 false = s.alive.getD w2 false :=
              boolGetD_set_ne _ _ _ _ hww
            rw [ht w2, h2]
            simp [hww]
        · rw [List.filter_append, List.length_append, countFalse_set _ _ hw, hc]
          simp
  · simp only [poolStep, hw, if_false]
    exact ⟨hq, hl, ht, hc⟩

theorem poolInv_run (k m : Nat) (sched : List Nat) (s : PoolState)
    (h : PoolInv k m s) : PoolInv k m (poolRun s sched) := by
  induction sched generalizing s with
  | nil => exact h
  | cons w ws ih => exact ih _ (poolInv_step k m s w h)

theorem poolInv_init (k m : Nat) : PoolInv k m (poolInit k m) := by
  refine ⟨rfl, List.length_replicate m true, ?_, ?_⟩
  · intro w
    show termCount w [] =
      if (List.replicate m true).getD w false = true then 0 else if w < m then 1 else 0
    rw [show termCount w [] = 0 from rfl, replicate_getD_true]
    by_cases hw : w < m
    · simp [hw]
    · simp [hw]
  · show (List.replicate m true).count false = 0
    rw [List.count_replicate]
    simp

/-- C3: at shutdown `ThreadPool::drop` queues exactly one `Terminate`
per Worker behind all submitted jobs (first conjunct), and for every
interleaving of the Workers' dequeues, once every Worker has exited —
which is what `drop`'s `join`s wait for — every one of the `k` queued
jobs has been executed (in queue order) and every Worker has consumed
exactly one `Terminate`; moreover in any reachable state no Worker has
ever consumed more than one `Terminate`
(`thread_pool.rs:47-74`, `thread_pool.rs:84-101`). -/
theorem c3_shutdown_protocol (k m : Nat) (hm : 0 < m) (sched : List Nat)
    (hdone : allExited m (poolRun (poolInit k m) sched)) :
    (initQueue k m).count PoolMsg.terminate = m ∧
    jobsDone (poolRun (poolInit k m) sched).log = List.range k ∧
    (∀ w, w < m → termCount w (poolRun (poolInit k m) sched).log = 1) ∧
    (∀ w, termCount w (poolRun (poolInit k m) sched).log ≤ 1) := by
  have hinv := poolInv_run k m sched (poolInit k m) (poolInv_init k m)
  set s := poolRun (poolInit k m) sched with hs
  obtain ⟨hq, hl, ht, hc⟩ := hinv
  refine ⟨initQueue_count_term k m, ?_, ?_, ?_⟩
  · have hallfalse : ∀ i, i < s.alive.length → s.alive.getD i false = false :=
      fun i hi => hdone i (hl ▸ hi)
    have hcount : s.alive.count false = m := by
      rw [countFalse_all s.alive hallfalse, hl]
    have hterm : (s.log.map Prod.snd).count PoolMsg.terminate = m := by
      rw [← filterTerm_length, ← hc, hcount]
    have hlen : (s.log.map Prod.snd).length + s.queue.length = k + m := by
      have hln := congrArg List.length hq
      rw [List.length_append, initQueue_length] at hln
      exact hln
    have hqueue0 : s.queue.count PoolMsg.terminate = 0 := by
      have hcq := congrArg (List.count PoolMsg.terminate) hq
      rw [List.count_append, hterm, initQueue_count_term] at hcq
      omega
    have hdropq : s.queue = (initQueue k m).drop (s.log.map Prod.snd).length := by
      rw [← hq, List.drop_left]
    have hge : k + m ≤ (s.log.map Prod.snd).length := by
      by_contra hlt
      push_neg at hlt
      set n := (s.log.map Prod.snd).length with hn
      have hj : ((List.range k).map PoolMsg.newJob).length = k := by
        rw [List.length_map, List.length_range]
      have h0 : (List.drop n ((List.range k).map PoolMsg.newJob)).count
          PoolMsg.terminate = 0 := by
        have hsub := (List.drop_sublist n
          ((List.range k).map PoolMsg.newJob)).count_le PoolMsg.terminate
        have hz := count_term_map_newJob (List.range k)
        omega
      have hqc : s.queue.count PoolMsg.terminate = m - (n - k) := by
        rw [hdropq]
        simp only [initQueue]
        rw [List.drop_append_eq_append_drop, hj, List.count_append, h0,
          List.drop_replicate, List.count_replicate_self]
        omega
      rw [hqueue0] at hqc
      omega
    have hqnil : s.queue = [] := by
      have hq0 : s.queue.length = 0 := by omega
      exact List.length_eq_zero.mp hq0
    have hfull : s.log.map Prod.snd = initQueue k m := by
      rw [hqnil, List.append_nil] at hq
      exact hq
    rw [jobsDone_map, hfull, initQueue_filterMap]
  · intro w hwm
    rw [ht w, hdone w hwm, if_neg Bool.false_ne_true, if_pos hwm]
  · intro w
    rw [ht w]
    split_ifs <;> omega

/-- Witness for `c3_shutdown_protocol`: a pool of 2 Workers with 3
jobs queued, Worker 0 taking two jobs and a Terminate, Worker 1 one
job and a Terminate. -/
theorem c3_shutdown_protocol_witness :
    (initQueue 3 2).count PoolMsg.terminate = 2 ∧
    jobsDone (poolRun (poolInit 3 2) [0, 1, 0, 0, 1]).log = List.range 3 ∧
    (∀ w, w < 2 → termCount w (poolRun (poolInit 3 2) [0, 1, 0, 0, 1]).log = 1) ∧
    (∀ w, termCount w (poolRun (poolInit 3 2) [0, 1, 0, 0, 1]).log ≤ 1) :=
  c3_shutdown_protocol 3 2 (by decide) [0, 1, 0, 0, 1] (by decide)

end ChatSpec
